import Mathlib

/-!
Verification of the owid-grapher axis-layout engine (AxisBox.tsx, AxisSpec.ts,
ScaleSelector.tsx) against its natural-language specification.

Numbers are modelled as rationals (`ℚ`); JavaScript `Infinity` sentinels in
AxisSpec.ts are modelled by an explicit extended-number type.  External
collaborators that the spec declares out of scope (the `Bounds` rectangle
type, text measurement, d3 tick generation) are modelled from the spec's
interface description and marked as such.
-/

namespace OwidAxis

/-- Modelled from the spec: the external `Bounds` type (spec section 6), an
axis-aligned rectangle given by its top-left corner and size.  `Bounds` is
consumed by the repository but its own source is not part of it. -/
structure Bounds where
  x : ℚ
  y : ℚ
  width : ℚ
  height : ℚ
deriving DecidableEq, Repr

/-- Modelled from the spec: `left` accessor of the external `Bounds`. -/
def Bounds.left (b : Bounds) : ℚ := b.x

/-- Modelled from the spec: `right` accessor of the external `Bounds`. -/
def Bounds.right (b : Bounds) : ℚ := b.x + b.width

/-- Modelled from the spec: `top` accessor of the external `Bounds`. -/
def Bounds.top (b : Bounds) : ℚ := b.y

/-- Modelled from the spec: `bottom` accessor of the external `Bounds`. -/
def Bounds.bottom (b : Bounds) : ℚ := b.y + b.height

/-- Modelled from the spec: `intersects(other) -> bool` of the external
`Bounds`: closed axis-aligned rectangle intersection. -/
def Bounds.intersects (b other : Bounds) : Bool :=
  decide (other.left ≤ b.right) && decide (b.left ≤ other.right) &&
    decide (other.top ≤ b.bottom) && decide (b.top ≤ other.bottom)

/-- Modelled from the spec: `padWidth(delta) -> Bounds` of the external
`Bounds`; per the spec a negative delta shrinks, so `padWidth d` moves each
vertical edge outward by `d` (inward for negative `d`). -/
def Bounds.padWidth (b : Bounds) (d : ℚ) : Bounds :=
  { b with x := b.x - d, width := b.width + 2 * d }

/-- Modelled from the spec: `padBottom(amount)` of the external `Bounds`,
removing `amount` from the bottom edge. -/
def Bounds.padBottom (b : Bounds) (a : ℚ) : Bounds :=
  { b with height := b.height - a }

/-- Modelled from the spec: `padLeft(amount)` of the external `Bounds`,
removing `amount` from the left edge. -/
def Bounds.padLeft (b : Bounds) (a : ℚ) : Bounds :=
  { b with x := b.x + a, width := b.width - a }

/-- Modelled from the spec: `xRange()` of the external `Bounds`. -/
def Bounds.xRange (b : Bounds) : ℚ × ℚ := (b.left, b.right)

/-- Modelled from the spec: `yRange()` of the external `Bounds`. -/
def Bounds.yRange (b : Bounds) : ℚ × ℚ := (b.bottom, b.top)

/-- Modelled from the spec: `bounds.extend(point)` of the external `Bounds`,
merging a new origin into the rectangle (used by `tickPlacements`). -/
def Bounds.extendXY (b : Bounds) (pt : ℚ × ℚ) : Bounds :=
  { b with x := pt.1, y := pt.2 }

theorem intersects_iff (b other : Bounds) :
    b.intersects other = true ↔
      (other.left ≤ b.right ∧ b.left ≤ other.right ∧
        other.top ≤ b.bottom ∧ b.top ≤ other.bottom) := by
  simp [Bounds.intersects, and_assoc]

theorem intersects_symm (b1 b2 : Bounds) :
    b1.intersects b2 = b2.intersects b1 := by
  rw [Bool.eq_iff_iff, intersects_iff, intersects_iff]
  constructor
  · rintro ⟨h1, h2, h3, h4⟩; exact ⟨h2, h1, h4, h3⟩
  · rintro ⟨h1, h2, h3, h4⟩; exact ⟨h2, h1, h4, h3⟩

/-- The two axis orientations of `AbstractAxis` (`HorizontalAxis` and
`VerticalAxis` in AxisBox.tsx). -/
inductive AxisKind where
  | horizontal
  | vertical
deriving DecidableEq, Repr

/-- The method `doIntersect` as dispatched per axis: the `AbstractAxis` default is plain
`bounds.intersects(bounds2)` (kept by `VerticalAxis`), while
`HorizontalAxis.doIntersect` overrides it with
`bounds.intersects(bounds2.padWidth(-5))`. -/
def doIntersectFor : AxisKind → Bounds → Bounds → Bool
  | .vertical, b1, b2 => b1.intersects b2
  | .horizontal, b1, b2 => b1.intersects (b2.padWidth (-5))

theorem doIntersectFor_symm (k : AxisKind) (b1 b2 : Bounds) :
    doIntersectFor k b1 b2 = doIntersectFor k b2 b1 := by
  cases k
  · rw [Bool.eq_iff_iff]
    simp only [doIntersectFor, intersects_iff, Bounds.padWidth, Bounds.left,
      Bounds.right, Bounds.top, Bounds.bottom]
    constructor
    · rintro ⟨h1, h2, h3, h4⟩
      exact ⟨by linarith, by linarith, by linarith, by linarith⟩
    · rintro ⟨h1, h2, h3, h4⟩
      exact ⟨by linarith, by linarith, by linarith, by linarith⟩
  · exact intersects_symm b1 b2

/-- The reading of the spec sentence for claim C3: both compared bounds are
shrunk by 5px of horizontal padding, then tested for plain intersection. -/
def specHorizontalIntersect (b1 b2 : Bounds) : Bool :=
  (b1.padWidth (-5)).intersects (b2.padWidth (-5))

/-- A tick candidate as produced by `AxisScale.getTickValues` (the `Tickmark`
interface imported from AxisScale.ts; the generator itself is external d3
machinery, so candidates are treated as data). -/
structure Tickmark where
  value : ℚ
  priority : ℚ
  isFirstOrLastTick : Bool
  gridLineOnly : Bool
  faint : Bool
deriving DecidableEq, Repr

/-- One entry of `AbstractAxis.tickPlacements`: the record
`(tick, bounds, isHidden)` built for each candidate. -/
structure TickPlacement where
  tick : ℚ
  bounds : Bounds
  isHidden : Bool
deriving DecidableEq, Repr

/-- One outer iteration of the collision pass in `AbstractAxis.ticks`: with
`t1` fixed (its flag already final), every later placement `t2` that is not
hidden, while `t1` is not hidden, and whose bounds pass `doIntersect`, is
marked hidden. -/
def hideOverlapping (doInt : Bounds → Bounds → Bool) (t1 : TickPlacement) :
    List TickPlacement → List TickPlacement :=
  List.map fun t2 =>
    if !t1.isHidden && !t2.isHidden && doInt t1.bounds t2.bounds then
      { t2 with isHidden := true }
    else t2

/-- Recursion skeleton of the O(n^2) collision pass of `AbstractAxis.ticks`,
with an explicit fuel argument (always instantiated with the list length) so
that the recursion is structural: each outer step processes the current head
(whose flag is final, since only earlier heads could have hidden it) against
the tail. -/
def collisionPassAux (doInt : Bounds → Bounds → Bool) :
    ℕ → List TickPlacement → List TickPlacement
  | 0, l => l
  | _ + 1, [] => []
  | n + 1, t1 :: rest =>
      t1 :: collisionPassAux doInt n (hideOverlapping doInt t1 rest)

/-- The O(n^2) collision pass of `AbstractAxis.ticks`: for `i` ascending and
every `j > i`, if neither placement is hidden and their bounds intersect,
the later one is hidden. -/
def collisionPass (doInt : Bounds → Bounds → Bool)
    (l : List TickPlacement) : List TickPlacement :=
  collisionPassAux doInt l.length l

theorem hideOverlapping_length (d : Bounds → Bounds → Bool)
    (t1 : TickPlacement) (l : List TickPlacement) :
    (hideOverlapping d t1 l).length = l.length := by
  simp [hideOverlapping]

theorem collisionPassAux_fuel (d : Bounds → Bounds → Bool) :
    ∀ (n m : ℕ) (l : List TickPlacement), l.length ≤ n → l.length ≤ m →
      collisionPassAux d n l = collisionPassAux d m l := by
  intro n
  induction n with
  | zero =>
      intro m l hn _
      have : l = [] := List.length_eq_zero.mp (by omega)
      subst this
      cases m <;> rfl
  | succ n ih =>
      intro m l hn hm
      match l with
      | [] => cases m <;> rfl
      | t1 :: rest =>
          match m with
          | 0 => exact absurd hm (by simp)
          | m + 1 =>
              simp only [collisionPassAux]
              rw [ih m (hideOverlapping d t1 rest)
                (by simp [hideOverlapping_length]; simpa using hn)
                (by simp [hideOverlapping_length]; simpa using hm)]

theorem collisionPass_nil (d : Bounds → Bounds → Bool) :
    collisionPass d [] = [] := rfl

theorem collisionPass_cons (d : Bounds → Bounds → Bool) (t1 : TickPlacement)
    (rest : List TickPlacement) :
    collisionPass d (t1 :: rest) =
      t1 :: collisionPass d (hideOverlapping d t1 rest) := by
  show collisionPassAux d (rest.length + 1) (t1 :: rest) = _
  simp only [collisionPassAux]
  rw [collisionPass, collisionPassAux_fuel d rest.length
    (hideOverlapping d t1 rest).length (hideOverlapping d t1 rest)
    (by simp [hideOverlapping_length]) (by simp)]

/-- Induction along the outer loop of the collision pass. -/
theorem collisionPass_induction (d : Bounds → Bounds → Bool)
    {motive : List TickPlacement → Prop} (nil : motive [])
    (cons : ∀ t1 rest, motive (hideOverlapping d t1 rest) →
      motive (t1 :: rest)) :
    ∀ l, motive l := by
  have key : ∀ (n : ℕ) (l : List TickPlacement), l.length = n → motive l := by
    intro n
    induction n with
    | zero =>
        intro l hl
        rw [List.length_eq_zero.mp hl]
        exact nil
    | succ n ih =>
        intro l hl
        match l with
        | t1 :: rest =>
            exact cons t1 rest (ih (hideOverlapping d t1 rest)
              (by simp [hideOverlapping_length]; simpa using hl))
  exact fun l => key l.length l rfl

theorem collisionPass_length (d : Bounds → Bounds → Bool)
    (l : List TickPlacement) : (collisionPass d l).length = l.length := by
  induction l using collisionPass_induction d with
  | nil => simp [collisionPass_nil]
  | cons t1 rest ih =>
      rw [collisionPass_cons]
      simp [ih, hideOverlapping_length]

theorem hideOverlapping_bounds (d : Bounds → Bounds → Bool)
    (t1 : TickPlacement) (l : List TickPlacement) (k : ℕ)
    (hk : k < l.length) (hk2 : k < (hideOverlapping d t1 l).length) :
    ((hideOverlapping d t1 l).get ⟨k, hk2⟩).bounds = (l.get ⟨k, hk⟩).bounds := by
  simp only [hideOverlapping, List.get_eq_getElem, List.getElem_map]
  split <;> rfl

theorem hideOverlapping_hidden_mono (d : Bounds → Bounds → Bool)
    (t1 : TickPlacement) (l : List TickPlacement) (k : ℕ)
    (hk : k < l.length) (hk2 : k < (hideOverlapping d t1 l).length)
    (h : (l.get ⟨k, hk⟩).isHidden = true) :
    ((hideOverlapping d t1 l).get ⟨k, hk2⟩).isHidden = true := by
  simp only [hideOverlapping, List.get_eq_getElem, List.getElem_map]
  split <;> simp_all

theorem hideOverlapping_clear (d : Bounds → Bounds → Bool)
    (t1 : TickPlacement) (l : List TickPlacement) (k : ℕ)
    (hk : k < l.length) (hk2 : k < (hideOverlapping d t1 l).length)
    (h1 : t1.isHidden = false)
    (h : ((hideOverlapping d t1 l).get ⟨k, hk2⟩).isHidden = false) :
    d t1.bounds (l.get ⟨k, hk⟩).bounds = false := by
  simp only [hideOverlapping, List.get_eq_getElem, List.getElem_map] at h
  split at h
  · simp at h
  · next hc =>
      simp only [Bool.and_eq_true, Bool.not_eq_true', not_and,
        Bool.not_eq_true] at hc
      exact hc ⟨h1, by simpa using h⟩

theorem hideOverlapping_newly_hidden (d : Bounds → Bounds → Bool)
    (t1 : TickPlacement) (l : List TickPlacement) (k : ℕ)
    (hk : k < l.length) (hk2 : k < (hideOverlapping d t1 l).length)
    (h : ((hideOverlapping d t1 l).get ⟨k, hk2⟩).isHidden = true)
    (h0 : (l.get ⟨k, hk⟩).isHidden = false) :
    t1.isHidden = false ∧ d t1.bounds (l.get ⟨k, hk⟩).bounds = true := by
  simp only [hideOverlapping, List.get_eq_getElem, List.getElem_map] at h
  split at h
  · next hc =>
      simp only [Bool.and_eq_true, Bool.not_eq_true'] at hc
      exact ⟨hc.1.1, hc.2⟩
  · exfalso
    simp only [List.get_eq_getElem] at h0
    rw [h0] at h
    exact Bool.false_ne_true h

theorem collisionPass_bounds (d : Bounds → Bounds → Bool) :
    ∀ (l : List TickPlacement) (k : ℕ) (hk : k < l.length)
      (hk2 : k < (collisionPass d l).length),
      ((collisionPass d l).get ⟨k, hk2⟩).bounds = (l.get ⟨k, hk⟩).bounds := by
  intro l
  induction l using collisionPass_induction d with
  | nil => intro k hk _; exact absurd hk (by simp)
  | cons t1 rest ih =>
      rw [collisionPass_cons]
      intro k hk hk2
      match k with
      | 0 => rfl
      | n + 1 =>
          have hn : n < rest.length := by simpa using hk
          have hn1 : n < (hideOverlapping d t1 rest).length := by
            simpa [hideOverlapping_length] using hn
          have hn2 : n < (collisionPass d (hideOverlapping d t1 rest)).length := by
            simpa [collisionPass_length] using hn1
          calc ((t1 :: collisionPass d (hideOverlapping d t1 rest)).get
                  ⟨n + 1, hk2⟩).bounds
              = ((collisionPass d (hideOverlapping d t1 rest)).get
                  ⟨n, hn2⟩).bounds := rfl
            _ = ((hideOverlapping d t1 rest).get ⟨n, hn1⟩).bounds :=
                ih n hn1 hn2
            _ = (rest.get ⟨n, hn⟩).bounds :=
                hideOverlapping_bounds d t1 rest n hn hn1
            _ = ((t1 :: rest).get ⟨n + 1, hk⟩).bounds := rfl

theorem collisionPass_hidden_mono (d : Bounds → Bounds → Bool) :
    ∀ (l : List TickPlacement) (k : ℕ) (hk : k < l.length)
      (hk2 : k < (collisionPass d l).length),
      (l.get ⟨k, hk⟩).isHidden = true →
      ((collisionPass d l).get ⟨k, hk2⟩).isHidden = true := by
  intro l
  induction l using collisionPass_induction d with
  | nil => intro k hk _; exact absurd hk (by simp)
  | cons t1 rest ih =>
      rw [collisionPass_cons]
      intro k hk hk2 hhid
      match k with
      | 0 => exact hhid
      | n + 1 =>
          have hn : n < rest.length := by simpa using hk
          have hn1 : n < (hideOverlapping d t1 rest).length := by
            simpa [hideOverlapping_length] using hn
          have hn2 : n < (collisionPass d (hideOverlapping d t1 rest)).length := by
            simpa [collisionPass_length] using hn1
          exact ih n hn1 hn2
            (hideOverlapping_hidden_mono d t1 rest n hn hn1 hhid)

theorem collisionPass_not_hidden (d : Bounds → Bounds → Bool)
    (l : List TickPlacement) (k : ℕ) (hk : k < l.length)
    (hk2 : k < (collisionPass d l).length)
    (h : ((collisionPass d l).get ⟨k, hk2⟩).isHidden = false) :
    (l.get ⟨k, hk⟩).isHidden = false := by
  by_contra hc
  rw [Bool.not_eq_false] at hc
  rw [collisionPass_hidden_mono d l k hk hk2 hc] at h
  exact absurd h (by simp)

/-- After the collision pass, two surviving placements at positions `i < j`
never pass the axis's intersection test. -/
theorem collisionPass_pairwise (d : Bounds → Bounds → Bool) :
    ∀ (l : List TickPlacement) (i j : ℕ) (_hij : i < j)
      (hi : i < (collisionPass d l).length)
      (hj : j < (collisionPass d l).length),
      ((collisionPass d l).get ⟨i, hi⟩).isHidden = false →
      ((collisionPass d l).get ⟨j, hj⟩).isHidden = false →
      d ((collisionPass d l).get ⟨i, hi⟩).bounds
        ((collisionPass d l).get ⟨j, hj⟩).bounds = false := by
  intro l
  induction l using collisionPass_induction d with
  | nil => intro i j _ hi _; rw [collisionPass_nil] at hi; exact absurd hi (by simp)
  | cons t1 rest ih =>
      rw [collisionPass_cons]
      intro i j hij hi hj hvisi hvisj
      match j with
      | 0 => exact absurd hij (by omega)
      | m + 1 =>
          have hm2 : m < (collisionPass d (hideOverlapping d t1 rest)).length := by
            simpa using hj
          have hm1 : m < (hideOverlapping d t1 rest).length := by
            simpa [collisionPass_length] using hm2
          have hm : m < rest.length := by
            simpa [hideOverlapping_length] using hm1
          match i with
          | 0 =>
              -- head versus a later survivor: the later one was not hidden in
              -- the pass over the tail, hence not hidden by `t1` either
              have hvism1 : ((hideOverlapping d t1 rest).get ⟨m, hm1⟩).isHidden
                  = false :=
                collisionPass_not_hidden d _ m hm1 hm2 hvisj
              have hclear := hideOverlapping_clear d t1 rest m hm hm1
                hvisi hvism1
              have hbe : ((collisionPass d (hideOverlapping d t1 rest)).get
                  ⟨m, hm2⟩).bounds = (rest.get ⟨m, hm⟩).bounds := by
                rw [collisionPass_bounds d _ m hm1 hm2]
                exact hideOverlapping_bounds d t1 rest m hm hm1
              show d t1.bounds ((collisionPass d
                  (hideOverlapping d t1 rest)).get ⟨m, hm2⟩).bounds = false
              rw [hbe]
              exact hclear
          | n + 1 =>
              have hn2 : n < (collisionPass d (hideOverlapping d t1 rest)).length := by
                simpa using hi
              exact ih n m (by omega) hn2 hm2 hvisi hvisj

/-- After the collision pass, a placement hidden in the output but not in the
input was hidden by some earlier placement that itself survives: it precedes
it, is not hidden, and their bounds pass the intersection test. -/
theorem collisionPass_hidden_witnessed (d : Bounds → Bounds → Bool) :
    ∀ (l : List TickPlacement) (j : ℕ) (hj : j < l.length)
      (hj2 : j < (collisionPass d l).length),
      ((collisionPass d l).get ⟨j, hj2⟩).isHidden = true →
      (l.get ⟨j, hj⟩).isHidden = false →
      ∃ (i : ℕ) (_hij : i < j) (hi2 : i < (collisionPass d l).length),
        ((collisionPass d l).get ⟨i, hi2⟩).isHidden = false ∧
        d ((collisionPass d l).get ⟨i, hi2⟩).bounds
          ((collisionPass d l).get ⟨j, hj2⟩).bounds = true := by
  intro l
  induction l using collisionPass_induction d with
  | nil => intro j hj _; exact absurd hj (by simp)
  | cons t1 rest ih =>
      rw [collisionPass_cons]
      intro j hj hj2 hhid hvis0
      match j with
      | 0 =>
          have h1 : t1.isHidden = true := hhid
          have h2 : t1.isHidden = false := hvis0
          rw [h1] at h2
          exact absurd h2 (by simp)
      | m + 1 =>
          have hm2 : m < (collisionPass d (hideOverlapping d t1 rest)).length := by
            simpa using hj2
          have hm1 : m < (hideOverlapping d t1 rest).length := by
            simpa [collisionPass_length] using hm2
          have hm : m < rest.length := by
            simpa [hideOverlapping_length] using hm1
          by_cases hmid : ((hideOverlapping d t1 rest).get ⟨m, hm1⟩).isHidden
            = true
          · -- hidden already by the head `t1`
            have hw := hideOverlapping_newly_hidden d t1 rest m hm hm1 hmid
              (by simpa using hvis0)
            refine ⟨0, by omega, by simp, hw.1, ?_⟩
            have hbe : ((collisionPass d (hideOverlapping d t1 rest)).get
                ⟨m, hm2⟩).bounds = (rest.get ⟨m, hm⟩).bounds := by
              rw [collisionPass_bounds d _ m hm1 hm2]
              exact hideOverlapping_bounds d t1 rest m hm hm1
            show d t1.bounds ((collisionPass d
                (hideOverlapping d t1 rest)).get ⟨m, hm2⟩).bounds = true
            rw [hbe]
            exact hw.2
          · -- hidden later, inside the pass over the tail
            rw [Bool.not_eq_true] at hmid
            obtain ⟨i, hij, hi2, hivis, hint⟩ :=
              ih m hm1 hm2 hhid hmid
            exact ⟨i + 1, by omega, by simpa using hi2, hivis, hint⟩

/-- Insertion step of the stable ascending sort by priority number used for
`sortBy(this.baseTicks, tick => tick.priority)`: the new element goes after
every strictly smaller key and before equal keys seen later. -/
def insertByPrio (t : Tickmark) : List Tickmark → List Tickmark
  | [] => [t]
  | u :: rest =>
      if u.priority < t.priority then u :: insertByPrio t rest
      else t :: u :: rest

/-- The stable sort by priority number (lodash `sortBy` with the priority key)
applied to the base tick candidates in `AbstractAxis.tickPlacements`. -/
def sortByPriority : List Tickmark → List Tickmark
  | [] => []
  | t :: rest => insertByPrio t (sortByPriority rest)

theorem mem_insertByPrio (t u : Tickmark) (l : List Tickmark) :
    u ∈ insertByPrio t l ↔ u = t ∨ u ∈ l := by
  induction l with
  | nil => simp [insertByPrio]
  | cons a rest ih =>
      rw [insertByPrio]
      split
      · simp only [List.mem_cons, ih]
        tauto
      · simp only [List.mem_cons]

theorem pairwise_insertByPrio (t : Tickmark) (l : List Tickmark)
    (h : l.Pairwise fun a b => a.priority ≤ b.priority) :
    (insertByPrio t l).Pairwise fun a b => a.priority ≤ b.priority := by
  induction l with
  | nil => simp [insertByPrio]
  | cons a rest ih =>
      rw [List.pairwise_cons] at h
      rw [insertByPrio]
      split
      · next hlt =>
          rw [List.pairwise_cons]
          refine ⟨?_, ih h.2⟩
          intro b hb
          rcases (mem_insertByPrio t b rest).mp hb with hb | hb
          · rw [hb]; linarith
          · exact h.1 b hb
      · next hge =>
          rw [List.pairwise_cons]
          constructor
          · intro b hb
            rcases List.mem_cons.mp hb with hb | hb
            · rw [hb]; linarith [not_lt.mp hge]
            · have := h.1 b hb
              linarith [not_lt.mp hge]
          · rw [List.pairwise_cons]
            exact h

theorem pairwise_sortByPriority (l : List Tickmark) :
    (sortByPriority l).Pairwise fun a b => a.priority ≤ b.priority := by
  induction l with
  | nil => simp [sortByPriority]
  | cons t rest ih => exact pairwise_insertByPrio t (sortByPriority rest) ih

theorem sortByPriority_sorted_get (l : List Tickmark) (i j : ℕ)
    (hi : i < (sortByPriority l).length) (hj : j < (sortByPriority l).length)
    (hij : i < j) :
    ((sortByPriority l).get ⟨i, hi⟩).priority ≤
      ((sortByPriority l).get ⟨j, hj⟩).priority :=
  List.pairwise_iff_get.mp (pairwise_sortByPriority l) ⟨i, hi⟩ ⟨j, hj⟩ hij

/-- The tick anchor point computed by the `placeTick` override of each axis:
`HorizontalAxis` centers the label horizontally on `place(value)` and lifts it
by the label offset; `VerticalAxis` uses `place(value)` vertically and a dummy
x of 1. -/
def placeTickPt : AxisKind → (ℚ → ℚ) → ℚ → ℚ → Bounds → ℚ × ℚ
  | .horizontal, place, labelOffset, v, b =>
      (place v - b.width / 2, b.bottom - labelOffset)
  | .vertical, place, _, v, _ => (1, place v)

/-- Embeds `AbstractAxis.tickPlacements`: sort the candidates by priority, then give
each one its measured label bounds moved to its tick anchor, with the hidden
flag clear.  Label formatting (`scale.tickFormat`) and text measurement
(`Bounds.forText`) are external services, passed as functions. -/
def tickPlacements (k : AxisKind) (fmt : ℚ → Bool → String)
    (forText : String → ℚ → Bounds) (place : ℚ → ℚ)
    (labelOffset fontSize : ℚ) (cands : List Tickmark) : List TickPlacement :=
  (sortByPriority cands).map fun t =>
    let b := forText (fmt t.value t.isFirstOrLastTick) (9 / 10 * fontSize)
    { tick := t.value,
      bounds := b.extendXY (placeTickPt k place labelOffset t.value b),
      isHidden := false }

/-- The placements of `AbstractAxis.ticks` after the collision pass has run. -/
def axisTicksResolved (k : AxisKind) (fmt : ℚ → Bool → String)
    (forText : String → ℚ → Bounds) (place : ℚ → ℚ)
    (labelOffset fontSize : ℚ) (cands : List Tickmark) : List TickPlacement :=
  collisionPass (doIntersectFor k)
    (tickPlacements k fmt forText place labelOffset fontSize cands)

/-- Ascending insertion for the final `sortBy` over surviving tick values. -/
def insertVal (q : ℚ) : List ℚ → List ℚ
  | [] => [q]
  | a :: rest => if a ≤ q then a :: insertVal q rest else q :: a :: rest

/-- Ascending sort over the surviving tick values (`sortBy` with the identity
key in `AbstractAxis.ticks`). -/
def sortValues : List ℚ → List ℚ
  | [] => []
  | q :: rest => insertVal q (sortValues rest)

/-- Embeds `AbstractAxis.ticks`: run the collision pass, drop hidden placements and
return the surviving tick values sorted ascending. -/
def axisTicks (k : AxisKind) (fmt : ℚ → Bool → String)
    (forText : String → ℚ → Bounds) (place : ℚ → ℚ)
    (labelOffset fontSize : ℚ) (cands : List Tickmark) : List ℚ :=
  sortValues
    (((axisTicksResolved k fmt forText place labelOffset fontSize cands).filter
        fun t => !t.isHidden).map fun t => t.tick)

theorem tickPlacements_not_hidden (k : AxisKind) (fmt : ℚ → Bool → String)
    (forText : String → ℚ → Bounds) (place : ℚ → ℚ)
    (labelOffset fontSize : ℚ) (cands : List Tickmark) (j : ℕ)
    (hj : j < (tickPlacements k fmt forText place labelOffset fontSize
      cands).length) :
    ((tickPlacements k fmt forText place labelOffset fontSize cands).get
      ⟨j, hj⟩).isHidden = false := by
  simp [tickPlacements, List.get_eq_getElem]

theorem tickPlacements_length (k : AxisKind) (fmt : ℚ → Bool → String)
    (forText : String → ℚ → Bounds) (place : ℚ → ℚ)
    (labelOffset fontSize : ℚ) (cands : List Tickmark) :
    (tickPlacements k fmt forText place labelOffset fontSize cands).length =
      (sortByPriority cands).length := by
  simp [tickPlacements]

theorem insertByPrio_length (t : Tickmark) (l : List Tickmark) :
    (insertByPrio t l).length = l.length + 1 := by
  induction l with
  | nil => rfl
  | cons a rest ih =>
      rw [insertByPrio]
      split <;> simp [ih]

theorem sortByPriority_length (l : List Tickmark) :
    (sortByPriority l).length = l.length := by
  induction l with
  | nil => rfl
  | cons t rest ih =>
      rw [sortByPriority, insertByPrio_length, ih, List.length_cons]

theorem axisTicksResolved_length (k : AxisKind) (fmt : ℚ → Bool → String)
    (forText : String → ℚ → Bounds) (place : ℚ → ℚ)
    (labelOffset fontSize : ℚ) (cands : List Tickmark) :
    (axisTicksResolved k fmt forText place labelOffset fontSize cands).length
      = cands.length := by
  rw [axisTicksResolved, collisionPass_length, tickPlacements_length,
    sortByPriority_length]

/-- C1: for every axis (horizontal or vertical) and every list of tick
placements, after the O(n^2) collision pass of `AbstractAxis.ticks` no two
distinct surviving (non-hidden) placements have intersecting bounds under
that axis's `doIntersect` test (the padded test for the horizontal axis):
the surviving set is pairwise overlap-free. -/
theorem c1_collision_invariant (k : AxisKind) (ps : List TickPlacement)
    (i j : ℕ) (hi : i < (collisionPass (doIntersectFor k) ps).length)
    (hj : j < (collisionPass (doIntersectFor k) ps).length) (hne : i ≠ j)
    (hvisi : ((collisionPass (doIntersectFor k) ps).get ⟨i, hi⟩).isHidden
      = false)
    (hvisj : ((collisionPass (doIntersectFor k) ps).get ⟨j, hj⟩).isHidden
      = false) :
    doIntersectFor k
      ((collisionPass (doIntersectFor k) ps).get ⟨i, hi⟩).bounds
      ((collisionPass (doIntersectFor k) ps).get ⟨j, hj⟩).bounds = false := by
  rcases Nat.lt_or_ge i j with h | h
  · exact collisionPass_pairwise (doIntersectFor k) ps i j h hi hj hvisi hvisj
  · have hji : j < i := by omega
    rw [doIntersectFor_symm]
    exact collisionPass_pairwise (doIntersectFor k) ps j i hji hj hi
      hvisj hvisi

/-- Two concrete horizontal-axis tick placements whose label bounds are far
apart, used to instantiate the collision-pass invariant. -/
def collisionExample : List TickPlacement :=
  [{ tick := 0, bounds := { x := 0, y := 0, width := 1, height := 1 },
     isHidden := false },
   { tick := 5, bounds := { x := 10, y := 0, width := 1, height := 1 },
     isHidden := false }]

theorem c1_collision_invariant_witness :
    doIntersectFor .horizontal
      ((collisionPass (doIntersectFor .horizontal) collisionExample).get
        ⟨0, by decide⟩).bounds
      ((collisionPass (doIntersectFor .horizontal) collisionExample).get
        ⟨1, by decide⟩).bounds = false :=
  c1_collision_invariant .horizontal collisionExample 0 1 (by decide)
    (by decide) (by decide)
    (by norm_num [collisionPass, collisionPassAux, hideOverlapping,
      doIntersectFor, Bounds.intersects, Bounds.padWidth, Bounds.left,
      Bounds.right, Bounds.top, Bounds.bottom, collisionExample])
    (by norm_num [collisionPass, collisionPassAux, hideOverlapping,
      doIntersectFor, Bounds.intersects, Bounds.padWidth, Bounds.left,
      Bounds.right, Bounds.top, Bounds.bottom, collisionExample])

/-- C2: the collision pass runs over placements sorted ascending by priority
number, so the placement at a smaller index never has a larger priority
number.  When the earlier (smaller-or-equal priority number) placement
survives and the two placements' bounds intersect, the later (larger
priority number, when they differ) placement is the one hidden; and every
hidden placement was hidden by an earlier placement that itself survives,
intersects it, and has a smaller-or-equal (strictly smaller, when they
differ) priority number — never the reverse. -/
theorem c2_priority_invariant (k : AxisKind) (fmt : ℚ → Bool → String)
    (forText : String → ℚ → Bounds) (place : ℚ → ℚ)
    (labelOffset fontSize : ℚ) (cands : List Tickmark) (i j : ℕ)
    (hij : i < j)
    (hi : i < (axisTicksResolved k fmt forText place labelOffset fontSize
      cands).length)
    (hj : j < (axisTicksResolved k fmt forText place labelOffset fontSize
      cands).length) :
    (∃ (hi2 : i < (sortByPriority cands).length)
       (hj2 : j < (sortByPriority cands).length),
       ((sortByPriority cands).get ⟨i, hi2⟩).priority ≤
         ((sortByPriority cands).get ⟨j, hj2⟩).priority) ∧
      (((axisTicksResolved k fmt forText place labelOffset fontSize
          cands).get ⟨i, hi⟩).isHidden = false →
        doIntersectFor k
          ((axisTicksResolved k fmt forText place labelOffset fontSize
            cands).get ⟨i, hi⟩).bounds
          ((axisTicksResolved k fmt forText place labelOffset fontSize
            cands).get ⟨j, hj⟩).bounds = true →
        ((axisTicksResolved k fmt forText place labelOffset fontSize
          cands).get ⟨j, hj⟩).isHidden = true) ∧
      (((axisTicksResolved k fmt forText place labelOffset fontSize
          cands).get ⟨j, hj⟩).isHidden = true →
        ∃ (i' : ℕ) (_hij : i' < j)
          (hi' : i' < (axisTicksResolved k fmt forText place labelOffset
            fontSize cands).length),
          ((axisTicksResolved k fmt forText place labelOffset fontSize
            cands).get ⟨i', hi'⟩).isHidden = false ∧
          doIntersectFor k
            ((axisTicksResolved k fmt forText place labelOffset fontSize
              cands).get ⟨i', hi'⟩).bounds
            ((axisTicksResolved k fmt forText place labelOffset fontSize
              cands).get ⟨j, hj⟩).bounds = true ∧
          ∃ (hi2 : i' < (sortByPriority cands).length)
            (hj2 : j < (sortByPriority cands).length),
            ((sortByPriority cands).get ⟨i', hi2⟩).priority ≤
              ((sortByPriority cands).get ⟨j, hj2⟩).priority ∧
            (((sortByPriority cands).get ⟨i', hi2⟩).priority ≠
                ((sortByPriority cands).get ⟨j, hj2⟩).priority →
              ((sortByPriority cands).get ⟨i', hi2⟩).priority <
                ((sortByPriority cands).get ⟨j, hj2⟩).priority)) := by
  simp only [axisTicksResolved] at hi hj ⊢
  have hlen : (collisionPass (doIntersectFor k)
      (tickPlacements k fmt forText place labelOffset fontSize
        cands)).length =
      (sortByPriority cands).length := by
    rw [collisionPass_length, tickPlacements_length]
  refine ⟨⟨by omega, by omega,
    sortByPriority_sorted_get cands i j (by omega) (by omega) hij⟩, ?_, ?_⟩
  · intro hvisi hint
    by_contra hvisj
    rw [Bool.not_eq_true] at hvisj
    have := collisionPass_pairwise (doIntersectFor k)
      (tickPlacements k fmt forText place labelOffset fontSize cands)
      i j hij hi hj hvisi hvisj
    rw [hint] at this
    exact absurd this (by simp)
  · intro hhid
    have hj0 : j < (tickPlacements k fmt forText place labelOffset fontSize
        cands).length := by
      rwa [collisionPass_length] at hj
    have hvis0 := tickPlacements_not_hidden k fmt forText place labelOffset
      fontSize cands j hj0
    obtain ⟨i', hi'j, hi', hivis, hint⟩ :=
      collisionPass_hidden_witnessed (doIntersectFor k) _ j hj0 hj hhid hvis0
    have hj2 : j < (sortByPriority cands).length := by omega
    have hi2 : i' < (sortByPriority cands).length := by omega
    have hle := sortByPriority_sorted_get cands i' j hi2 hj2 hi'j
    exact ⟨i', hi'j, hi', hivis, hint, hi2, hj2, hle,
      fun hne => lt_of_le_of_ne hle hne⟩

/-- Two tick candidates with priorities 1 and 2 whose labels are measured to
the same box, so the collision pass must hide the lower-priority one. -/
def priorityExample : List Tickmark :=
  [{ value := 0, priority := 1, isFirstOrLastTick := false,
     gridLineOnly := false, faint := false },
   { value := 3, priority := 2, isFirstOrLastTick := false,
     gridLineOnly := false, faint := false }]

/-- The resolved placements of the two-candidate example on a vertical axis
whose measurer gives every label the same box. -/
def resolvedExample : List TickPlacement :=
  axisTicksResolved .vertical (fun _ _ => "")
    (fun _ _ => { x := 0, y := 0, width := 10, height := 10 })
    (fun _ => 0) 0 10 priorityExample

theorem c2_priority_invariant_witness :
    (∃ (hi2 : 0 < (sortByPriority priorityExample).length)
       (hj2 : 1 < (sortByPriority priorityExample).length),
       ((sortByPriority priorityExample).get ⟨0, hi2⟩).priority ≤
         ((sortByPriority priorityExample).get ⟨1, hj2⟩).priority) ∧
      ((resolvedExample.get ⟨0, by
          simp [resolvedExample, axisTicksResolved_length,
            priorityExample]⟩).isHidden = false →
        doIntersectFor .vertical
          (resolvedExample.get ⟨0, by
            simp [resolvedExample, axisTicksResolved_length,
              priorityExample]⟩).bounds
          (resolvedExample.get ⟨1, by
            simp [resolvedExample, axisTicksResolved_length,
              priorityExample]⟩).bounds = true →
        (resolvedExample.get ⟨1, by
          simp [resolvedExample, axisTicksResolved_length,
            priorityExample]⟩).isHidden = true) ∧
      ((resolvedExample.get ⟨1, by
          simp [resolvedExample, axisTicksResolved_length,
            priorityExample]⟩).isHidden = true →
        ∃ (i' : ℕ) (_hij : i' < 1) (hi' : i' < resolvedExample.length),
          (resolvedExample.get ⟨i', hi'⟩).isHidden = false ∧
          doIntersectFor .vertical
            (resolvedExample.get ⟨i', hi'⟩).bounds
            (resolvedExample.get ⟨1, by
              simp [resolvedExample, axisTicksResolved_length,
                priorityExample]⟩).bounds = true ∧
          ∃ (hi2 : i' < (sortByPriority priorityExample).length)
            (hj2 : 1 < (sortByPriority priorityExample).length),
            ((sortByPriority priorityExample).get ⟨i', hi2⟩).priority ≤
              ((sortByPriority priorityExample).get ⟨1, hj2⟩).priority ∧
            (((sortByPriority priorityExample).get ⟨i', hi2⟩).priority ≠
                ((sortByPriority priorityExample).get ⟨1, hj2⟩).priority →
              ((sortByPriority priorityExample).get ⟨i', hi2⟩).priority <
                ((sortByPriority priorityExample).get ⟨1, hj2⟩).priority)) :=
  c2_priority_invariant .vertical (fun _ _ => "")
    (fun _ _ => { x := 0, y := 0, width := 10, height := 10 })
    (fun _ => 0) 0 10 priorityExample 0 1 (by decide)
    (by simp [axisTicksResolved_length, priorityExample])
    (by simp [axisTicksResolved_length, priorityExample])

/-- C3 counterexample: two overlapping label boxes on the horizontal axis for
which the code's padded test (`bounds.intersects(bounds2.padWidth(-5))`,
which shrinks only the second box) reports an intersection while the spec's
reading (both boxes shrunk by 5px of padding) reports none. -/
theorem c3_counterexample :
    doIntersectFor .horizontal
        { x := 0, y := 0, width := 10, height := 10 }
        { x := 4, y := 0, width := 10, height := 10 } = true ∧
      specHorizontalIntersect
        { x := 0, y := 0, width := 10, height := 10 }
        { x := 4, y := 0, width := 10, height := 10 } = false := by
  constructor <;>
    norm_num [doIntersectFor, specHorizontalIntersect, Bounds.intersects,
      Bounds.padWidth, Bounds.left, Bounds.right, Bounds.top, Bounds.bottom]

/-- C3 (amended): `HorizontalAxis.doIntersect(b1, b2)` shrinks only the
second bounds by 5px of horizontal padding before testing intersection —
which is the same test as shrinking each of the two bounds by 2.5px of
horizontal padding. -/
theorem c3_horizontal_padding (b1 b2 : Bounds) :
    doIntersectFor .horizontal b1 b2 =
      (b1.padWidth (-(5 / 2))).intersects (b2.padWidth (-(5 / 2))) := by
  rw [Bool.eq_iff_iff]
  simp only [doIntersectFor, intersects_iff, Bounds.padWidth, Bounds.left,
    Bounds.right, Bounds.top, Bounds.bottom]
  constructor
  · rintro ⟨h1, h2, h3, h4⟩
    exact ⟨by linarith, by linarith, by linarith, by linarith⟩
  · rintro ⟨h1, h2, h3, h4⟩
    exact ⟨by linarith, by linarith, by linarith, by linarith⟩

/-- The two scale types of ChartConstants.ts (`ScaleType.linear` and
`ScaleType.log`). -/
inductive ScaleType where
  | linear
  | log
deriving DecidableEq, Repr

/-- The `AxisScale` mapper owned by each axis (AxisScale.ts itself is not
part of the sources, so its observable outputs — the tick candidates and the
formatted tick strings, both functions of the domain and scale type only —
are carried as data). -/
structure AxisScale where
  scaleType : ScaleType
  domain : ℚ × ℚ
  range : ℚ × ℚ
  hideFractionalTicks : Bool
  tickValues : List Tickmark
  formattedTicks : List String
deriving DecidableEq, Repr

/-- Embeds `AbstractAxis.baseTicks`: the scale's tick candidates with the
gridline-only candidates filtered out. -/
def abstractBaseTicks (s : AxisScale) : List Tickmark :=
  s.tickValues.filter fun tick => !tick.gridLineOnly

/-- The JavaScript test `x % 1 === 0` applied to a rational: true exactly on
whole numbers. -/
def isWholeNumber (q : ℚ) : Bool := q.den == 1

/-- Accumulator recursion behind lodash `uniq` on an array of tick-candidate
objects.  Lodash `uniq` compares entries with SameValueZero, which for
objects is reference identity, never their field contents; object references
are modelled by a natural-number allocation tag on each entry.  The first
entry for every reference is kept; field-identical entries with different
references are both kept. -/
def uniqSVZAux (seen : List ℕ) : List (ℕ × Tickmark) → List (ℕ × Tickmark)
  | [] => []
  | t :: rest =>
      if t.1 ∈ seen then uniqSVZAux seen rest
      else t :: uniqSVZAux (t.1 :: seen) rest

/-- Lodash `uniq` (SameValueZero) on reference-tagged tick candidates. -/
def uniqSameValueZero (l : List (ℕ × Tickmark)) : List (ℕ × Tickmark) :=
  uniqSVZAux [] l

/-- Embeds `HorizontalAxis.baseTicks` up to, but not including, its final
`uniq` call: start from the gridline-filtered candidates, prepend a
synthetic start candidate when the domain minimum is whole, and append a
synthetic end candidate when the domain maximum is whole and
`hideFractionalTicks` is set — both at priority 2 for log scales and 1
otherwise, and flagged `isFirstOrLastTick`. -/
def preUniqBaseTicks (s : AxisScale) : List Tickmark :=
  let ticks0 := abstractBaseTicks s
  let startEndPrio : ℚ := if s.scaleType = ScaleType.log then 2 else 1
  let ticks1 :=
    if isWholeNumber s.domain.1 then
      { value := s.domain.1, priority := startEndPrio,
        isFirstOrLastTick := true, gridLineOnly := false,
        faint := false } :: ticks0
    else ticks0
  let ticks2 :=
    if isWholeNumber s.domain.2 && s.hideFractionalTicks then
      ticks1 ++
        [{ value := s.domain.2, priority := startEndPrio,
           isFirstOrLastTick := true, gridLineOnly := false,
           faint := false }]
    else ticks1
  ticks2

/-- Embeds `HorizontalAxis.baseTicks`: the candidate list with the
synthetic endpoint candidates, passed through lodash `uniq`.  Every entry of
that array is a distinct JavaScript object — `getTickValues` builds a fresh
array of fresh candidate objects and the two synthetic candidates are fresh
object literals — so each entry is tagged with its position as its
reference, making all references pairwise distinct. -/
def horizontalBaseTicks (s : AxisScale) : List Tickmark :=
  (uniqSameValueZero (preUniqBaseTicks s).enum).map Prod.snd

theorem uniqSVZAux_of_nodup :
    ∀ (l : List (ℕ × Tickmark)) (seen : List ℕ),
      (l.map Prod.fst).Nodup → (∀ x ∈ l, x.1 ∉ seen) →
      uniqSVZAux seen l = l := by
  intro l
  induction l with
  | nil => intro seen _ _; rfl
  | cons t rest ih =>
      intro seen hnd hseen
      rw [uniqSVZAux, if_neg (hseen t (List.mem_cons_self t rest))]
      rw [List.map_cons, List.nodup_cons] at hnd
      congr 1
      apply ih (t.1 :: seen) hnd.2
      intro x hx
      rw [List.mem_cons]
      push_neg
      refine ⟨?_, hseen x (List.mem_cons_of_mem t hx)⟩
      intro hEq
      exact hnd.1 (hEq ▸ List.mem_map_of_mem Prod.fst hx)

/-- The lodash `uniq` call in `HorizontalAxis.baseTicks` removes nothing:
all compared entries are distinct object references. -/
theorem horizontalBaseTicks_eq_preUniq (s : AxisScale) :
    horizontalBaseTicks s = preUniqBaseTicks s := by
  rw [horizontalBaseTicks, uniqSameValueZero,
    uniqSVZAux_of_nodup _ [] (List.nodup_enum_map_fst _) (by simp)]
  simp

/-- A linear horizontal scale with whole domain endpoints 0 and 5,
`hideFractionalTicks` off, and one ordinary candidate that shares the tick
value 0 with the synthetic start candidate. -/
def baseTicksExample : AxisScale :=
  { scaleType := .linear, domain := (0, 5), range := (0, 100),
    hideFractionalTicks := false,
    tickValues :=
      [{ value := 0, priority := 10, isFirstOrLastTick := false,
         gridLineOnly := false, faint := false }],
    formattedTicks := [] }

/-- The same scale with `hideFractionalTicks` set and no ordinary
candidates, for instantiating the amended base-ticks description. -/
def baseTicksExampleHidden : AxisScale :=
  { scaleType := .linear, domain := (0, 5), range := (0, 100),
    hideFractionalTicks := true, tickValues := [], formattedTicks := [] }

/-- C4 counterexample: on a linear horizontal scale with whole domain
endpoints 0 and 5 but `hideFractionalTicks` unset, `baseTicks` contains no
candidate at the domain maximum at all, and it contains two entries with the
same tick value 0 — lodash `uniq` compares object references, never tick
values, so nothing is deduplicated by value. -/
theorem c4_counterexample :
    (¬ ∃ t ∈ horizontalBaseTicks baseTicksExample, t.value = 5) ∧
      ¬ ((horizontalBaseTicks baseTicksExample).map
          fun t => t.value).Nodup := by
  rw [horizontalBaseTicks_eq_preUniq]
  constructor
  · norm_num [preUniqBaseTicks, baseTicksExample, abstractBaseTicks,
      isWholeNumber, Tickmark.mk.injEq]
  · norm_num [preUniqBaseTicks, baseTicksExample, abstractBaseTicks,
      isWholeNumber, Tickmark.mk.injEq]

/-- C4 (amended): on a horizontal axis whose domain minimum is a whole
number, `baseTicks` contains a synthetic candidate at the domain minimum,
flagged `isFirstOrLastTick`, with priority 2 for a log scale and 1 for a
linear scale; when additionally the domain maximum is whole and the scale
hides fractional ticks, it likewise contains such a candidate at the domain
maximum; and the final lodash `uniq` call deduplicates by object reference
(SameValueZero) rather than by tick value, so it removes nothing from this
list of distinct objects — two entries may share a tick value. -/
theorem c4_base_ticks (s : AxisScale)
    (h1 : isWholeNumber s.domain.1 = true) :
    ({ value := s.domain.1,
       priority := if s.scaleType = ScaleType.log then 2 else 1,
       isFirstOrLastTick := true, gridLineOnly := false,
       faint := false } : Tickmark) ∈ horizontalBaseTicks s ∧
      (isWholeNumber s.domain.2 = true → s.hideFractionalTicks = true →
        ({ value := s.domain.2,
           priority := if s.scaleType = ScaleType.log then 2 else 1,
           isFirstOrLastTick := true, gridLineOnly := false,
           faint := false } : Tickmark) ∈ horizontalBaseTicks s) ∧
      horizontalBaseTicks s = preUniqBaseTicks s := by
  refine ⟨?_, ?_, horizontalBaseTicks_eq_preUniq s⟩
  · rw [horizontalBaseTicks_eq_preUniq]
    show _ ∈ preUniqBaseTicks s
    rw [preUniqBaseTicks]
    rw [if_pos h1]
    split
    · exact List.mem_append_left _ (List.mem_cons_self _ _)
    · exact List.mem_cons_self _ _
  · intro h2 hhf
    rw [horizontalBaseTicks_eq_preUniq]
    show _ ∈ preUniqBaseTicks s
    rw [preUniqBaseTicks]
    rw [if_pos (by simp [h2, hhf])]
    exact List.mem_append_right _ (List.mem_cons_self _ _)

theorem c4_base_ticks_witness :
    ({ value := 0, priority := 1, isFirstOrLastTick := true,
       gridLineOnly := false, faint := false } : Tickmark) ∈
        horizontalBaseTicks baseTicksExampleHidden ∧
      ({ value := 5, priority := 1, isFirstOrLastTick := true,
         gridLineOnly := false, faint := false } : Tickmark) ∈
        horizontalBaseTicks baseTicksExampleHidden ∧
      horizontalBaseTicks baseTicksExampleHidden =
        preUniqBaseTicks baseTicksExampleHidden := by
  have h := c4_base_ticks baseTicksExampleHidden
    (by norm_num [baseTicksExampleHidden, isWholeNumber])
  refine ⟨?_, ?_, h.2.2⟩
  · have := h.1
    simpa [baseTicksExampleHidden] using this
  · have := h.2.1
      (by norm_num [baseTicksExampleHidden, isWholeNumber]) rfl
    simpa [baseTicksExampleHidden] using this

/-- The finalized `AxisSpec` record consumed by `AxisBox` (tick formatting is
an external service and is not carried here). -/
structure AxisSpecRec where
  scaleType : ScaleType
  scaleTypeOptions : List ScaleType
  label : String
  domain : ℚ × ℚ
  hideFractionalTicks : Bool
  hideGridlines : Bool
deriving DecidableEq, Repr

/-- The external collaborators consumed by the axis layout: text measurement
(`Bounds.forText`), wrapped-label height (`TextWrap`), and the d3-backed tick
generation of AxisScale.ts, all functions of their visible inputs. -/
structure Externals where
  forText : String → ℚ → Bounds
  wrapHeight : String → ℚ → ℚ → ℚ
  genTickValues : ScaleType → ℚ × ℚ → List Tickmark
  genFormattedTicks : ScaleType → ℚ × ℚ → List String

/-- Embeds `new AxisScale(spec)`: a mapper over the spec's domain and scale type,
before any pixel range is attached. -/
def mkAxisScale (E : Externals) (spec : AxisSpecRec) : AxisScale :=
  { scaleType := spec.scaleType, domain := spec.domain, range := (0, 0),
    hideFractionalTicks := spec.hideFractionalTicks,
    tickValues := E.genTickValues spec.scaleType spec.domain,
    formattedTicks := E.genFormattedTicks spec.scaleType spec.domain }

/-- Embeds `scale.clone` with a range argument: same mapper with a new pixel range. -/
def AxisScale.clone (s : AxisScale) (r : ℚ × ℚ) : AxisScale :=
  { s with range := r }

/-- Embeds `scale.rangeSize`: the length of the pixel range. -/
def AxisScale.rangeSize (s : AxisScale) : ℚ := |s.range.2 - s.range.1|

/-- Embeds `HorizontalAxis.labelOffset`: the wrapped label height plus twice the
5px label padding, or 0 when no label text is present. -/
def horizontalLabelOffset (E : Externals) (labelText : String)
    (labelWidth fontSize : ℚ) : ℚ :=
  if labelText = "" then 0
  else E.wrapHeight labelText labelWidth (7 / 10 * fontSize) + 2 * 5

/-- Embeds `VerticalAxis.labelOffset`: the wrapped label height plus 10, or 0 when
no label text is present. -/
def verticalLabelOffset (E : Externals) (labelText : String)
    (labelWidth fontSize : ℚ) : ℚ :=
  if labelText = "" then 0
  else E.wrapHeight labelText labelWidth (7 / 10 * fontSize) + 10

/-- Embeds `HorizontalAxis.height`: measured height of the first formatted tick at
the 0.9-scaled tick font, plus the label offset, plus 5. -/
def horizontalAxisHeight (E : Externals) (s : AxisScale)
    (labelText : String) (fontSize : ℚ) : ℚ :=
  (E.forText (s.formattedTicks.headD "") (9 / 10 * fontSize)).height +
    horizontalLabelOffset E labelText s.rangeSize fontSize + 5

/-- Lodash `maxBy(ticks, tick => tick.length)`: the first longest string. -/
def longestString : List String → String
  | [] => ""
  | t :: rest =>
      let r := longestString rest
      if r.length > t.length then r else t

/-- Embeds `VerticalAxis.width`: measured width of the longest formatted tick at
the 0.9-scaled tick font, plus the label offset, plus 5. -/
def verticalAxisWidth (E : Externals) (s : AxisScale)
    (labelText : String) (fontSize : ℚ) : ℚ :=
  (E.forText (longestString s.formattedTicks) (9 / 10 * fontSize)).width +
    verticalLabelOffset E labelText s.rangeSize fontSize + 5

/-- The constructor arguments of `AxisBox`. -/
structure AxisBoxProps where
  bounds : Bounds
  fontSize : ℚ
  xAxisSpec : AxisSpecRec
  yAxisSpec : AxisSpecRec

/-- The mutable animation state of `AxisBox`: previous and target domains,
the optional animation progress, and the optional first frame timestamp. -/
structure AxisBoxState where
  targetYDomain : ℚ × ℚ
  targetXDomain : ℚ × ℚ
  prevYDomain : ℚ × ℚ
  prevXDomain : ℚ × ℚ
  animProgress : Option ℚ
  frameStart : Option ℚ

/-- The shared body of `AxisBox.currentYDomain` and
`AxisBox.currentXDomain`: without animation the spec's domain is used;
otherwise the minimum interpolates with the animation progress, except that
a progress of exactly 0 (falsy in JavaScript) is replaced by 0.01 for log
scales and 0 otherwise, while the maximum always interpolates with the raw
progress value. -/
def currentDomain (st : ScaleType) (specDomain prev target : ℚ × ℚ) :
    Option ℚ → ℚ × ℚ
  | none => specDomain
  | some a =>
      let progress :=
        if a = 0 then (if st = ScaleType.log then 1 / 100 else 0) else a
      (prev.1 + (target.1 - prev.1) * progress,
       prev.2 + (target.2 - prev.2) * a)

/-- Embeds `AxisBox.currentYDomain`. -/
def currentYDomain (p : AxisBoxProps) (s : AxisBoxState) : ℚ × ℚ :=
  currentDomain p.yAxisSpec.scaleType p.yAxisSpec.domain s.prevYDomain
    s.targetYDomain s.animProgress

/-- Embeds `AxisBox.currentXDomain`. -/
def currentXDomain (p : AxisBoxProps) (s : AxisBoxState) : ℚ × ℚ :=
  currentDomain p.xAxisSpec.scaleType p.xAxisSpec.domain s.prevXDomain
    s.targetXDomain s.animProgress

/-- Embeds `AxisBox.xAxisSpec`: the configured spec with its domain replaced by the
animated current domain. -/
def xAxisSpecCur (p : AxisBoxProps) (s : AxisBoxState) : AxisSpecRec :=
  { p.xAxisSpec with domain := currentXDomain p s }

/-- Embeds `AxisBox.yAxisSpec`: the configured spec with its domain replaced by the
animated current domain. -/
def yAxisSpecCur (p : AxisBoxProps) (s : AxisBoxState) : AxisSpecRec :=
  { p.yAxisSpec with domain := currentYDomain p s }

/-- Embeds `AxisBox.xAxisHeight`: the x axis sized in isolation, on a scratch scale
whose pixel range spans the full outer width. -/
def xAxisHeight (E : Externals) (p : AxisBoxProps) (s : AxisBoxState) : ℚ :=
  horizontalAxisHeight E
    ((mkAxisScale E (xAxisSpecCur p s)).clone (0, p.bounds.width))
    (xAxisSpecCur p s).label p.fontSize

/-- Embeds `AxisBox.yAxisWidth`: the y axis sized in isolation, on a scratch scale
whose pixel range spans the full outer height. -/
def yAxisWidth (E : Externals) (p : AxisBoxProps) (s : AxisBoxState) : ℚ :=
  verticalAxisWidth E
    ((mkAxisScale E (yAxisSpecCur p s)).clone (0, p.bounds.height))
    (yAxisSpecCur p s).label p.fontSize

/-- Embeds `AxisBox.innerBounds`: the outer bounds padded at the bottom by the
estimated x-axis height and at the left by the estimated y-axis width. -/
def innerBounds (E : Externals) (p : AxisBoxProps) (s : AxisBoxState) :
    Bounds :=
  (p.bounds.padBottom (xAxisHeight E p s)).padLeft (yAxisWidth E p s)

/-- Embeds `AxisBox.xScale`: the final x mapper, rebuilt with the inner bounds'
horizontal pixel range. -/
def xScale (E : Externals) (p : AxisBoxProps) (s : AxisBoxState) : AxisScale :=
  (mkAxisScale E (xAxisSpecCur p s)).clone (innerBounds E p s).xRange

/-- Embeds `AxisBox.yScale`: the final y mapper, rebuilt with the inner bounds'
vertical pixel range. -/
def yScale (E : Externals) (p : AxisBoxProps) (s : AxisBoxState) : AxisScale :=
  (mkAxisScale E (yAxisSpecCur p s)).clone (innerBounds E p s).yRange

/-- C5: the inner bounds of an `AxisBox` are the outer bounds padded at the
bottom by the x-axis height estimate and at the left by the y-axis width
estimate (so the right and top edges are kept); the two estimates are each
computed in isolation on scratch scales ranging over the full outer width
and full outer height respectively; and the final x and y scales are rebuilt
over the current specs with the inner bounds' xRange and yRange. -/
theorem c5_inner_bounds (E : Externals) (p : AxisBoxProps)
    (s : AxisBoxState) :
    innerBounds E p s =
      { x := p.bounds.x + yAxisWidth E p s, y := p.bounds.y,
        width := p.bounds.width - yAxisWidth E p s,
        height := p.bounds.height - xAxisHeight E p s } ∧
      (innerBounds E p s).right = p.bounds.right ∧
      (innerBounds E p s).top = p.bounds.top ∧
      xAxisHeight E p s = horizontalAxisHeight E
        ((mkAxisScale E (xAxisSpecCur p s)).clone (0, p.bounds.width))
        (xAxisSpecCur p s).label p.fontSize ∧
      yAxisWidth E p s = verticalAxisWidth E
        ((mkAxisScale E (yAxisSpecCur p s)).clone (0, p.bounds.height))
        (yAxisSpecCur p s).label p.fontSize ∧
      ((mkAxisScale E (xAxisSpecCur p s)).clone (0, p.bounds.width)).range
        = (0, p.bounds.width) ∧
      ((mkAxisScale E (yAxisSpecCur p s)).clone (0, p.bounds.height)).range
        = (0, p.bounds.height) ∧
      (xScale E p s).range =
        ((innerBounds E p s).left, (innerBounds E p s).right) ∧
      (yScale E p s).range =
        ((innerBounds E p s).bottom, (innerBounds E p s).top) ∧
      (xScale E p s).domain = (xAxisSpecCur p s).domain ∧
      (yScale E p s).domain = (yAxisSpecCur p s).domain := by
  refine ⟨?_, ?_, rfl, rfl, rfl, rfl, rfl, rfl, rfl, rfl, rfl⟩
  · simp [innerBounds, Bounds.padBottom, Bounds.padLeft]
  · simp [innerBounds, Bounds.padBottom, Bounds.padLeft, Bounds.right]

/-- A log-scaled y axis next to a linear x axis, mid-animation. -/
def animProps : AxisBoxProps :=
  { bounds := { x := 0, y := 0, width := 400, height := 300 },
    fontSize := 16,
    xAxisSpec :=
      { scaleType := .linear, scaleTypeOptions := [.linear], label := "",
        domain := (0, 10), hideFractionalTicks := false,
        hideGridlines := false },
    yAxisSpec :=
      { scaleType := .log, scaleTypeOptions := [.linear, .log], label := "",
        domain := (1, 100), hideFractionalTicks := false,
        hideGridlines := false } }

/-- Animation state at the exact start of a tween from domain (1, 100)
toward domain (2, 500). -/
def animStateZero : AxisBoxState :=
  { targetYDomain := (2, 500), targetXDomain := (0, 10),
    prevYDomain := (1, 100), prevXDomain := (0, 10),
    animProgress := some 0, frameStart := none }

/-- C6 counterexample: on a log y axis at animation progress exactly 0, the
claimed domain — both components interpolated with factor 0.01 — is
(1.01, 104), but the code substitutes 0.01 only in the minimum component and
multiplies the maximum delta by the raw progress 0, giving (1.01, 100). -/
theorem c6_counterexample :
    currentYDomain animProps animStateZero
        ≠ (1 + (2 - 1) * (1 / 100), 100 + (500 - 100) * (1 / 100)) ∧
      currentYDomain animProps animStateZero
        = (1 + (2 - 1) * (1 / 100), 100 + (500 - 100) * 0) := by
  constructor
  · norm_num [currentYDomain, currentDomain, animProps, animStateZero,
      Prod.ext_iff]
  · norm_num [currentYDomain, currentDomain, animProps, animStateZero,
      Prod.ext_iff]

/-- C6 (amended): at animation progress exactly 0 the 0.01 substitution
applies only to the domain minimum of a log axis — the minimum interpolates
with factor 0.01 for log scales and stays at the previous minimum for linear
scales, while the maximum always equals the previous maximum, its delta
being multiplied by the raw progress 0. -/
theorem c6_progress_zero (p : AxisBoxProps) (tY tX pY pX : ℚ × ℚ)
    (fs : Option ℚ) :
    currentYDomain p
        { targetYDomain := tY, targetXDomain := tX, prevYDomain := pY,
          prevXDomain := pX, animProgress := some 0, frameStart := fs } =
      ((if p.yAxisSpec.scaleType = ScaleType.log then
          pY.1 + (tY.1 - pY.1) * (1 / 100) else pY.1), pY.2) ∧
      currentXDomain p
        { targetYDomain := tY, targetXDomain := tX, prevYDomain := pY,
          prevXDomain := pX, animProgress := some 0, frameStart := fs } =
      ((if p.xAxisSpec.scaleType = ScaleType.log then
          pX.1 + (tX.1 - pX.1) * (1 / 100) else pX.1), pX.2) := by
  constructor
  · rcases hst : p.yAxisSpec.scaleType <;>
      simp [currentYDomain, currentDomain, hst]
  · rcases hst : p.xAxisSpec.scaleType <;>
      simp [currentXDomain, currentDomain, hst]

/-- The effective frame-start reference used by `AxisBox.frame`: the stored
`frameStart` when it is set and nonzero (a zero timestamp is falsy in
JavaScript, so `!this.frameStart` treats it as unset), and otherwise the
incoming timestamp, which `frame` then stores. -/
def effFrameStart (fs : Option ℚ) (timestamp : ℚ) : ℚ :=
  match fs with
  | none => timestamp
  | some f => if f = 0 then timestamp else f

/-- Embeds `AxisBox.frame(timestamp)`: no-op without an animation in progress;
otherwise advance the progress by the elapsed time over the 300ms window,
capped at 1, and clear `frameStart` once the progress reaches 1 (otherwise
keep the effective frame start for the rescheduled callback). -/
def frame (s : AxisBoxState) (timestamp : ℚ) : AxisBoxState :=
  match s.animProgress with
  | none => s
  | some p =>
      let fs := effFrameStart s.frameStart timestamp
      let p2 := min 1 (p + (timestamp - fs) / 300)
      { s with animProgress := some p2,
               frameStart := if p2 < 1 then some fs else none }

/-- Animation state with progress 0 and a frame-start reference of 600. -/
def frameStateLate : AxisBoxState :=
  { targetYDomain := (1, 100), targetXDomain := (1, 100),
    prevYDomain := (1, 100), prevXDomain := (1, 100),
    animProgress := some 0, frameStart := some 600 }

/-- C7 counterexample: with animation progress 0 (inside [0, 1]) and
frameStart 600, a frame at timestamp 0 — earlier than frameStart — drives
the progress to -2, outside [0, 1], so `frame` does not keep the progress in
[0, 1] for every timestamp. -/
theorem c7_counterexample :
    (frame frameStateLate 0).animProgress = some (-2) ∧ (-2 : ℚ) < 0 := by
  constructor
  · norm_num [frame, effFrameStart, frameStateLate, min_def]
  · norm_num

/-- C7 (amended): when the animation progress is defined and lies in [0, 1]
and the timestamp is not earlier than the effective frame start (the stored
`frameStart` when set and nonzero, else the timestamp itself), `frame`
updates the progress to min(1, progress + (timestamp - frameStart) / 300)
with the effective frame start as reference, the result stays in [0, 1] and
never decreases, and `frameStart` is cleared to undefined exactly when the
updated progress has reached 1. -/
theorem c7_frame (s : AxisBoxState) (p timestamp : ℚ)
    (hp : s.animProgress = some p) (h0 : 0 ≤ p) (h1 : p ≤ 1)
    (hts : effFrameStart s.frameStart timestamp ≤ timestamp) :
    (frame s timestamp).animProgress = some (min 1
      (p + (timestamp - effFrameStart s.frameStart timestamp) / 300)) ∧
      0 ≤ min 1
        (p + (timestamp - effFrameStart s.frameStart timestamp) / 300) ∧
      min 1 (p + (timestamp - effFrameStart s.frameStart timestamp) / 300)
        ≤ 1 ∧
      p ≤ min 1
        (p + (timestamp - effFrameStart s.frameStart timestamp) / 300) ∧
      ((frame s timestamp).frameStart = none ↔
        min 1 (p + (timestamp - effFrameStart s.frameStart timestamp) / 300)
          = 1) := by
  have hdiv : 0 ≤ (timestamp - effFrameStart s.frameStart timestamp) / 300 :=
    div_nonneg (by linarith) (by norm_num)
  have hle : p ≤ p + (timestamp - effFrameStart s.frameStart timestamp) / 300
    := by linarith
  refine ⟨by simp [frame, hp], le_min (by norm_num) (by linarith),
    min_le_left _ _, le_min h1 hle, ?_⟩
  simp only [frame, hp]
  split
  · next hlt =>
      constructor
      · intro h; exact absurd h (by simp)
      · intro h; rw [h] at hlt; exact absurd hlt (by simp)
  · next hge =>
      have : min 1 (p + (timestamp - effFrameStart s.frameStart timestamp)
          / 300) = 1 := le_antisymm (min_le_left _ _) (not_lt.mp hge)
      simp [this]

/-- Animation state mid-tween: progress one half, frame start 30. -/
def frameStateMid : AxisBoxState :=
  { targetYDomain := (1, 100), targetXDomain := (1, 100),
    prevYDomain := (1, 100), prevXDomain := (1, 100),
    animProgress := some (1 / 2), frameStart := some 30 }

theorem c7_frame_witness :
    (frame frameStateMid 330).animProgress = some (min 1
      ((1 / 2 : ℚ) + (330 - effFrameStart frameStateMid.frameStart 330)
        / 300)) ∧
      0 ≤ min 1 ((1 / 2 : ℚ)
        + (330 - effFrameStart frameStateMid.frameStart 330) / 300) ∧
      min 1 ((1 / 2 : ℚ)
        + (330 - effFrameStart frameStateMid.frameStart 330) / 300) ≤ 1 ∧
      (1 / 2 : ℚ) ≤ min 1 ((1 / 2 : ℚ)
        + (330 - effFrameStart frameStateMid.frameStart 330) / 300) ∧
      ((frame frameStateMid 330).frameStart = none ↔
        min 1 ((1 / 2 : ℚ)
          + (330 - effFrameStart frameStateMid.frameStart 330) / 300) = 1) :=
  c7_frame frameStateMid (1 / 2) 330 rfl (by norm_num) (by norm_num)
    (by norm_num [effFrameStart, frameStateMid])

/-- JavaScript `Array.prototype.indexOf`: the first index holding the value,
or -1 when absent. -/
def jsIndexOf (opts : List ScaleType) (x : ScaleType) : Int :=
  match opts with
  | [] => -1
  | a :: rest =>
      if a = x then 0
      else
        let r := jsIndexOf rest x
        if r = -1 then -1 else r + 1

/-- The scale type selected by `ScaleSelector.onClick`: the entry after the
current scale type's index, wrapping to index 0 when the incremented index
runs past the end of `scaleTypeOptions` (`undefined`, i.e. `none`, can only
arise from indexing an empty list). -/
def onClickNewValue (scaleType : ScaleType) (opts : List ScaleType) :
    Option ScaleType :=
  let nextIdx0 : Int := jsIndexOf opts scaleType + 1
  let nextIdx : Int := if nextIdx0 ≥ (opts.length : Int) then 0 else nextIdx0
  opts[nextIdx.toNat]?

theorem jsIndexOf_ge (opts : List ScaleType) (x : ScaleType) :
    -1 ≤ jsIndexOf opts x := by
  induction opts with
  | nil => simp [jsIndexOf]
  | cons a rest ih =>
      rw [jsIndexOf]
      split
      · norm_num
      · dsimp only
        split
        · norm_num
        · omega

theorem jsIndexOf_lt_length (opts : List ScaleType) (x : ScaleType) :
    ∀ (i : ℕ), jsIndexOf opts x = (i : Int) → i < opts.length := by
  induction opts with
  | nil => intro i h; rw [jsIndexOf] at h; omega
  | cons a rest ih =>
      intro i h
      rw [jsIndexOf] at h
      split at h
      · have : i = 0 := by omega
        simp [this]
      · dsimp only at h
        split at h
        · omega
        · next hne =>
            have hge := jsIndexOf_ge rest x
            have hr0 : 0 ≤ jsIndexOf rest x := by omega
            obtain ⟨n, hn⟩ := Int.eq_ofNat_of_zero_le hr0
            have hi : i = n + 1 := by omega
            have := ih n hn
            simp [hi]
            omega

/-- C8: when `scaleTypeOptions` holds the current scale type at (first)
index `i`, a `ScaleSelector` click selects the entry at index
`(i + 1) mod length` — the next allowed scale type, wrapping to the first
one after the last. -/
theorem c8_scale_selector (opts : List ScaleType) (st : ScaleType) (i : ℕ)
    (h : jsIndexOf opts st = (i : Int)) :
    ∃ hlt : (i + 1) % opts.length < opts.length,
      onClickNewValue st opts =
        some (opts.get ⟨(i + 1) % opts.length, hlt⟩) := by
  have hi : i < opts.length := jsIndexOf_lt_length opts st i h
  have hpos : 0 < opts.length := by omega
  refine ⟨Nat.mod_lt _ hpos, ?_⟩
  rw [onClickNewValue, h]
  by_cases hwrap : i + 1 = opts.length
  · rw [if_pos (by omega)]
    have hmod : (i + 1) % opts.length = 0 := by
      rw [hwrap, Nat.mod_self]
    simp [hmod, List.getElem?_eq_getElem hpos, List.get_eq_getElem]
  · have hlt1 : i + 1 < opts.length := by omega
    rw [if_neg (by omega)]
    have hmod : (i + 1) % opts.length = i + 1 := Nat.mod_eq_of_lt hlt1
    have htn : ((i : Int) + 1).toNat = i + 1 := by omega
    simp [hmod, htn, List.getElem?_eq_getElem hlt1, List.get_eq_getElem]

theorem c8_scale_selector_witness :
    onClickNewValue .linear [.linear, .log] = some .log ∧
      onClickNewValue .log [.linear, .log] = some .linear := by
  constructor
  · obtain ⟨hlt, heq⟩ :=
      c8_scale_selector [.linear, .log] .linear 0 (by decide)
    rw [heq]
    rfl
  · obtain ⟨hlt, heq⟩ :=
      c8_scale_selector [.linear, .log] .log 1 (by decide)
    rw [heq]
    rfl

/-- A JavaScript number that is either finite (a rational) or one of the two
infinities used as sentinels by `AxisRuntime` in AxisSpec.ts. -/
inductive JsNumber where
  | negInf
  | fin (q : ℚ)
  | posInf
deriving DecidableEq, Repr

/-- The JavaScript `<` comparison on such numbers. -/
def JsNumber.ltJ : JsNumber → JsNumber → Bool
  | negInf, negInf => false
  | negInf, _ => true
  | fin _, negInf => false
  | fin a, fin b => decide (a < b)
  | fin _, posInf => true
  | posInf, _ => false

/-- The JavaScript `<=` comparison on such numbers. -/
def JsNumber.leJ : JsNumber → JsNumber → Bool
  | negInf, _ => true
  | fin _, negInf => false
  | fin a, fin b => decide (a ≤ b)
  | fin _, posInf => true
  | posInf, posInf => true
  | posInf, _ => false

/-- JavaScript `Math.min` on two numbers. -/
def jsMin (a b : JsNumber) : JsNumber := if JsNumber.ltJ a b then a else b

/-- JavaScript `Math.max` on two numbers. -/
def jsMax (a b : JsNumber) : JsNumber := if JsNumber.ltJ a b then b else a

theorem leJ_refl (a : JsNumber) : JsNumber.leJ a a = true := by
  cases a <;> simp [JsNumber.leJ]

theorem leJ_of_ltJ (a b : JsNumber) (h : JsNumber.ltJ a b = true) :
    JsNumber.leJ a b = true := by
  cases a <;> cases b <;> simp_all [JsNumber.ltJ, JsNumber.leJ]
  linarith

theorem leJ_of_not_ltJ (a b : JsNumber) (h : JsNumber.ltJ a b = false) :
    JsNumber.leJ b a = true := by
  cases a <;> cases b <;> simp_all [JsNumber.ltJ, JsNumber.leJ]

theorem jsMin_leJ_right (a b : JsNumber) :
    JsNumber.leJ (jsMin a b) b = true := by
  rw [jsMin]
  rcases h : JsNumber.ltJ a b with _ | _
  · rw [if_neg (by simp [h])]
    exact leJ_refl b
  · rw [if_pos (by simp [h])]
    exact leJ_of_ltJ a b h

theorem leJ_jsMax_right (a b : JsNumber) :
    JsNumber.leJ b (jsMax a b) = true := by
  rw [jsMax]
  rcases h : JsNumber.ltJ a b with _ | _
  · rw [if_neg (by simp [h])]
    exact leJ_of_not_ltJ a b h
  · rw [if_pos (by simp [h])]
    exact leJ_refl b

/-- The `AxisRuntime` configuration of AxisSpec.ts: optional user min/max
bounds, scale type, and presentation fields. -/
structure AxisRuntime where
  min : Option ℚ
  max : Option ℚ
  scaleType : ScaleType
  canChangeScaleType : Bool
  label : String
  removePointsOutsideDomain : Bool
deriving DecidableEq, Repr

/-- Embeds `AxisRuntime.constrainedMin`: `Infinity` for a log scale whose
configured minimum (or 0 in its absence — `this.min || 0`) is not positive,
otherwise the configured minimum, defaulting to `Infinity` when unset. -/
def constrainedMin (r : AxisRuntime) : JsNumber :=
  if r.scaleType = ScaleType.log ∧ r.min.getD 0 ≤ 0 then .posInf
  else
    match r.min with
    | some m => .fin m
    | none => .posInf

/-- Embeds `AxisRuntime.constrainedMax`: `-Infinity` for a log scale whose
configured maximum (or 0 in its absence) is not positive, otherwise the
configured maximum, defaulting to `-Infinity` when unset. -/
def constrainedMax (r : AxisRuntime) : JsNumber :=
  if r.scaleType = ScaleType.log ∧ r.max.getD 0 ≤ 0 then .negInf
  else
    match r.max with
    | some m => .fin m
    | none => .negInf

/-- Embeds `AxisRuntime.isOutsideDomain`:
`value < constrainedMin || value > constrainedMax`. -/
def isOutsideDomain (r : AxisRuntime) (v : ℚ) : Bool :=
  JsNumber.ltJ (.fin v) (constrainedMin r) ||
    JsNumber.ltJ (constrainedMax r) (.fin v)

/-- Embeds `AxisRuntime.domain`: the pair of constrained bounds. -/
def runtimeDomain (r : AxisRuntime) : JsNumber × JsNumber :=
  (constrainedMin r, constrainedMax r)

/-- The domain of the spec produced by `AxisRuntime.toSpec`:
`[min(domain[0], defaultDomain[0]), max(domain[1], defaultDomain[1])]`. -/
def toSpecDomain (r : AxisRuntime) (defaultDomain : ℚ × ℚ) :
    JsNumber × JsNumber :=
  (jsMin (runtimeDomain r).1 (.fin defaultDomain.1),
   jsMax (runtimeDomain r).2 (.fin defaultDomain.2))

/-- C9: for every axis configuration and every default domain [a, b], the
finalized domain of `toSpec` has its lower end at most `a` and its upper end
at least `b` — the data-derived default domain is always contained in the
finalized domain, whatever the configured min/max and scale type. -/
theorem c9_to_spec_domain (r : AxisRuntime) (dd : ℚ × ℚ) :
    JsNumber.leJ (toSpecDomain r dd).1 (.fin dd.1) = true ∧
      JsNumber.leJ (.fin dd.2) (toSpecDomain r dd).2 = true :=
  ⟨jsMin_leJ_right _ _, leJ_jsMax_right _ _⟩

/-- An `AxisRuntime` whose `min` and `max` are both left undefined, with
every other field arbitrary. -/
def unboundedRuntime (st : ScaleType) (cc : Bool) (lbl : String)
    (rp : Bool) : AxisRuntime :=
  { min := none, max := none, scaleType := st, canChangeScaleType := cc,
    label := lbl, removePointsOutsideDomain := rp }

/-- C10: when neither `min` nor `max` is configured, `constrainedMin` is
`Infinity` and `constrainedMax` is `-Infinity`, so `isOutsideDomain` reports
every (non-NaN) value as outside the domain. -/
theorem c10_unbounded_domain (st : ScaleType) (cc : Bool) (lbl : String)
    (rp : Bool) :
    constrainedMin (unboundedRuntime st cc lbl rp) = .posInf ∧
      constrainedMax (unboundedRuntime st cc lbl rp) = .negInf ∧
      ∀ v : ℚ,
        isOutsideDomain (unboundedRuntime st cc lbl rp) v = true := by
  refine ⟨?_, ?_, ?_⟩
  · rcases st <;> simp [constrainedMin, unboundedRuntime]
  · rcases st <;> simp [constrainedMax, unboundedRuntime]
  · intro v
    rcases st <;>
      simp [isOutsideDomain, constrainedMin, constrainedMax,
        unboundedRuntime, JsNumber.ltJ]

end OwidAxis
